import Mathlib

/-!
Verification of the caleb-cards-dashboard repository against its
natural-language specification.

The repository ships the React frontend (src/frontend, plus the unnamed
component files) and a README describing the Python backend
(backend/scrapers/comp_engine.py, backend/scrapers/ebay_scraper.py,
backend/api/main.py); the backend sources themselves are not part of the
repository snapshot.  Frontend functions are embedded directly from their
TypeScript sources; backend components (comp engine, result cache, refresh
orchestrator) are modelled from the specification, as marked on each
definition.
-/

namespace CalebCards

/-- Price-trend classification, `'up' | 'down' | 'stable'` in
src/frontend/src/types/index.ts (`Card.price_trend`). -/
inductive PriceTrend where
  | up
  | down
  | stable
deriving DecidableEq, Repr

/-- The `Card` interface from src/frontend/src/types/index.ts.
Nullable numeric fields become `Option ℚ`; nullable strings `Option String`. -/
structure Card where
  id : ℕ
  year : ℕ
  set_name : String
  parallel_rarity : String
  serial_number : Option String
  population : Option ℕ
  date_acquired : Option String
  is_graded : Bool
  grading_company : Option String
  grade : Option ℚ
  cost_basis : Option ℚ
  authenticity_guaranteed : Bool
  is_owned : Bool
  last_sale_price : Option ℚ
  last_sale_date : Option String
  avg_30_day_price : Option ℚ
  num_sales_30_day : Option ℤ
  price_trend : Option PriceTrend
  lowest_active_price : Option ℚ
  lowest_active_url : Option String
  estimated_value : Option ℚ
  last_price_update : Option String
  ebay_sold_url : Option String
  ebay_active_url : Option String
deriving DecidableEq, Repr

/-- The `RefreshStatus` interface from src/frontend/src/types/index.ts:
the wire shape of the `/prices/status` endpoint as consumed by
`useRefreshStatus` in src/frontend/src/hooks/useApi.ts. -/
structure RefreshStatus where
  running : Bool
  progress : ℕ
  total : ℕ
  current_card : String
deriving DecidableEq, Repr

/-- JavaScript falsiness of a nullable number: `!x` is true exactly when
`x` is `null` or `0` (NaN does not arise over ℚ). -/
def jsFalsy : Option ℚ → Bool
  | none => true
  | some q => q == 0

/-- Result shape of `calculatePL` in CardTable
(`{ dollars: number | null, percent: number | null }`). -/
structure PLResult where
  dollars : Option ℚ
  percent : Option ℚ
deriving DecidableEq, Repr

/-- `calculatePL` from the CardTable component (src/unnamed/part_002,
lines 36–42):

```js
const value = card.estimated_value ?? card.cost_basis;
if (!card.cost_basis || !value) return { dollars: null, percent: null };
const dollars = value - card.cost_basis;
const percent = (dollars / card.cost_basis) * 100;
return { dollars, percent };
```

`??` falls back only on `null`, while `!` also treats `0` as falsy. -/
def calculatePL (card : Card) : PLResult :=
  let value : Option ℚ :=
    match card.estimated_value with
    | some v => some v
    | none => card.cost_basis
  if jsFalsy card.cost_basis || jsFalsy value then ⟨none, none⟩
  else
    let cb := card.cost_basis.getD 0
    let v := value.getD 0
    ⟨some (v - cb), some ((v - cb) / cb * 100)⟩

/-- Specification function for the amended C10 claim: `calculatePL`
returns `{null, null}` when `cost_basis` is null or 0 and also when
`estimated_value` is exactly 0 (the coalesced value is falsy); returns
`{0, 0}` when `cost_basis` is a nonzero number and `estimated_value` is
null; otherwise computes the P/L against `cost_basis`. -/
def plSpec (card : Card) : PLResult :=
  match card.cost_basis with
  | none => ⟨none, none⟩
  | some cb =>
    if cb = 0 then ⟨none, none⟩
    else
      match card.estimated_value with
      | none => ⟨some 0, some 0⟩
      | some v =>
        if v = 0 then ⟨none, none⟩
        else ⟨some (v - cb), some ((v - cb) / cb * 100)⟩

/-- `calculateDiscount` from the WantListTable component
(src/unnamed/part_004, lines 30–33):

```js
if (!card.lowest_active_price || !card.avg_30_day_price) return null;
return ((card.avg_30_day_price - card.lowest_active_price) / card.avg_30_day_price) * 100;
``` -/
def calculateDiscount (card : Card) : Option ℚ :=
  if jsFalsy card.lowest_active_price || jsFalsy card.avg_30_day_price then none
  else
    let l := card.lowest_active_price.getD 0
    let a := card.avg_30_day_price.getD 0
    some ((a - l) / a * 100)

/-- `isBuyingOpportunity` from the WantListTable row rendering
(src/unnamed/part_004, line 123):
`discount !== null && discount >= 10`. -/
def isBuyingOpportunity (card : Card) : Bool :=
  match calculateDiscount card with
  | none => false
  | some d => 10 ≤ d

/- ### Comparable-Sales (Comp) Engine — modelled from the spec.
backend/scrapers/comp_engine.py is named by the README but absent from the
repository snapshot, so the engine is reconstructed from spec §4.3. -/

/-- Modelled from the spec: `ListingRecord` (§3),
`{price, date, platform, source_url, is_sold}`.  Dates are integer day
numbers. -/
structure ListingRecord where
  price : ℚ
  date : ℤ
  platform : String
  source_url : String
  is_sold : Bool
deriving DecidableEq, Repr

/-- Modelled from the spec: the fixed 30-day lookback window (§4.3, glossary). -/
def LOOKBACK_DAYS : ℤ := 30

/-- Modelled from the spec: each half of the lookback window spans 15 days
(price-trend comparison, §4.3). -/
def HALF_WINDOW_DAYS : ℤ := 15

/-- Modelled from the spec: the fixed relative threshold for the price-trend
classification; the spec's scenario uses 10% (§8). -/
def TREND_THRESHOLD : ℚ := 1 / 10

/-- Modelled from the spec: the four valuation tiers of the Comp Engine
(§4.3). -/
inductive Tier where
  | tier1
  | tier2
  | tier3
  | tier4
deriving DecidableEq, Repr

/-- Modelled from the spec: `ValuationResult` (§3). -/
structure ValuationResult where
  estimated_value : Option ℚ
  avg_30_day_price : Option ℚ
  num_sales_30_day : ℕ
  price_trend : Option PriceTrend
  lowest_active_price : Option ℚ
  lowest_active_url : Option String
  tier_used : Tier
deriving DecidableEq, Repr

/-- Modelled from the spec: the per-item attributes the Comp Engine consumes
(§3 Item, §4.3): player identity, population ceiling (null = unlimited) and
membership in a recognized draft-class comparison cohort. -/
structure Item where
  id : ℕ
  player : String
  population : Option ℕ
  inCohort : Bool
deriving DecidableEq, Repr

/-- Modelled from the spec: one sibling item's sold history, as passed to
`value` via `siblingHistories` (§4.3 Tiers 2–3). -/
structure SiblingHistory where
  player : String
  population : Option ℕ
  inCohort : Bool
  sales : List ListingRecord
deriving DecidableEq, Repr

/-- Arithmetic mean of a list of rationals (sum divided by length). -/
def meanQ (l : List ℚ) : ℚ := l.sum / (l.length : ℚ)

/-- Modelled from the spec: the sales of a sold history that fall within the
30-day lookback window ending at `now` (§4.3 Tier 1). -/
def windowSales (sold : List ListingRecord) (now : ℤ) : List ListingRecord :=
  sold.filter (fun r => decide (now - LOOKBACK_DAYS ≤ r.date) && decide (r.date ≤ now))

/-- Modelled from the spec: sales of the most recent 15-day half of the
lookback window (§4.3 price trend). -/
def laterHalfSales (sold : List ListingRecord) (now : ℤ) : List ListingRecord :=
  sold.filter (fun r => decide (now - HALF_WINDOW_DAYS ≤ r.date) && decide (r.date ≤ now))

/-- Modelled from the spec: sales of the prior 15-day half of the lookback
window (§4.3 price trend). -/
def earlierHalfSales (sold : List ListingRecord) (now : ℤ) : List ListingRecord :=
  sold.filter (fun r =>
    decide (now - LOOKBACK_DAYS ≤ r.date) && decide (r.date < now - HALF_WINDOW_DAYS))

/-- Modelled from the spec: the price-trend classification (§4.3): `up` if
the later half's mean exceeds the earlier half's by more than the relative
threshold, `down` if below by more than the threshold, `stable` otherwise;
no classification when either half has no sales. -/
def priceTrend (sold : List ListingRecord) (now : ℤ) : Option PriceTrend :=
  let later := laterHalfSales sold now
  let earlier := earlierHalfSales sold now
  if later = [] ∨ earlier = [] then none
  else
    let mL := meanQ (later.map (·.price))
    let mE := meanQ (earlier.map (·.price))
    if mE * (1 + TREND_THRESHOLD) < mL then some .up
    else if mL < mE * (1 - TREND_THRESHOLD) then some .down
    else some .stable

/-- Modelled from the spec: keep whichever of two listings has the lower
price, breaking a price tie by the earlier listing date (§4.3). -/
def betterListing (a b : ListingRecord) : ListingRecord :=
  if b.price < a.price ∨ (b.price = a.price ∧ b.date < a.date) then b else a

/-- Modelled from the spec: the minimum-price listing among the active
listings, price ties broken by earliest listing date (§4.3). -/
def lowestActive : List ListingRecord → Option ListingRecord
  | [] => none
  | x :: xs => some (xs.foldl betterListing x)

/-- Modelled from the spec: the within-window sale prices of cohort siblings
(§4.3 Tier 2 draft-class comps). -/
def cohortSales (siblings : List SiblingHistory) (now : ℤ) : List ℚ :=
  ((siblings.filter (·.inCohort)).map
    (fun s => (windowSales s.sales now).map (·.price))).flatten

/-- Modelled from the spec: the cohort median population ceiling (§4.3
Tier 2); `null`/unlimited populations are excluded. -/
def cohortMedianPop (siblings : List SiblingHistory) : Option ℕ :=
  let pops := ((siblings.filter (·.inCohort)).filterMap (·.population)).mergeSort (· ≤ ·)
  pops.get? (pops.length / 2)

/-- Modelled from the spec: Tier 2 applies when the item belongs to a
recognized comparison cohort and the cohort has within-window sales (§4.3). -/
def tier2Applies (item : Item) (siblings : List SiblingHistory) (now : ℤ) : Bool :=
  item.inCohort && !(cohortSales siblings now).isEmpty

/-- Modelled from the spec: Tier 2 estimate — mean of cohort sales scaled so
that a lower population ceiling than the cohort median scales the value
upward; a `null`/unlimited population is treated as the cohort median
(scale 1) (§4.3). -/
def tier2Estimate (item : Item) (siblings : List SiblingHistory) (now : ℤ) : ℚ :=
  let scale : ℚ :=
    match item.population, cohortMedianPop siblings with
    | some p, some m => if p = 0 then 1 else (m : ℚ) / (p : ℚ)
    | _, _ => 1
  meanQ (cohortSales siblings now) * scale

/-- Modelled from the spec: Tier 3 candidate comps — sibling histories for
the same player whose population ceiling is within ±10 of the item's and
which have at least one within-window sale; each candidate contributes its
population and its mean within-window sale price (§4.3). -/
def tier3Candidates (item : Item) (siblings : List SiblingHistory) (now : ℤ) :
    List (ℕ × ℚ) :=
  match item.population with
  | none => []
  | some p =>
    siblings.filterMap (fun s =>
      match s.population with
      | none => none
      | some q =>
        if s.player = item.player ∧ (q : ℤ) - (p : ℤ) ≤ 10 ∧ (p : ℤ) - (q : ℤ) ≤ 10 ∧
            windowSales s.sales now ≠ [] then
          some (q, meanQ ((windowSales s.sales now).map (·.price)))
        else none)

/-- Pick the candidate with the largest population (the nearest neighbor
from below), keeping the first on ties. -/
def nearestBelow : List (ℕ × ℚ) → Option (ℕ × ℚ)
  | [] => none
  | x :: xs => some (xs.foldl (fun a b => if a.1 < b.1 then b else a) x)

/-- Pick the candidate with the smallest population (the nearest neighbor
from above), keeping the first on ties. -/
def nearestAbove : List (ℕ × ℚ) → Option (ℕ × ℚ)
  | [] => none
  | x :: xs => some (xs.foldl (fun a b => if b.1 < a.1 then b else a) x)

/-- Modelled from the spec: Tier 3 estimate — linear interpolation between
the two nearest population neighbors (nearest at-or-below and nearest
above); if only one neighbor exists, its value is used directly (§4.3). -/
def tier3Estimate (p : ℕ) (cands : List (ℕ × ℚ)) : Option ℚ :=
  let below := cands.filter (fun c => c.1 ≤ p)
  let above := cands.filter (fun c => p < c.1)
  match nearestBelow below, nearestAbove above with
  | some b, some a =>
    some (b.2 + (a.2 - b.2) * (((p : ℚ) - (b.1 : ℚ)) / ((a.1 : ℚ) - (b.1 : ℚ))))
  | some b, none => some b.2
  | none, some a => some a.2
  | none, none => none

/-- Modelled from the spec: the Comp Engine contract
`value(item, soldHistory, siblingHistories, activeListings) → ValuationResult`
(§4.3), tried in strict tier precedence order; the 30-day aggregates, the
price trend and the lowest active listing are computed regardless of the
tier used. -/
def value (item : Item) (soldHistory : List ListingRecord)
    (siblingHistories : List SiblingHistory)
    (activeListings : List ListingRecord) (now : ℤ) : ValuationResult :=
  let ws := windowSales soldHistory now
  let wp := ws.map (·.price)
  let low := lowestActive activeListings
  let base : ValuationResult :=
    { estimated_value := none
      avg_30_day_price := if wp = [] then none else some (meanQ wp)
      num_sales_30_day := ws.length
      price_trend := priceTrend soldHistory now
      lowest_active_price := low.map (·.price)
      lowest_active_url := low.map (·.source_url)
      tier_used := .tier4 }
  if wp = [] then
    if tier2Applies item siblingHistories now then
      { base with
          estimated_value := some (tier2Estimate item siblingHistories now)
          tier_used := .tier2 }
    else
      let t3 : Option ℚ :=
        match item.population with
        | some p => tier3Estimate p (tier3Candidates item siblingHistories now)
        | none => none
      match t3 with
      | some e => { base with estimated_value := some e, tier_used := .tier3 }
      | none => base
  else
    { base with estimated_value := some (meanQ wp), tier_used := .tier1 }

/- ### Result Cache — modelled from the spec.
The backend cache (README §Configuration: "Results cached for 15 minutes")
is part of the absent Python backend; reconstructed from spec §4.2. -/

/-- Modelled from the spec: `CacheEntry = {fingerprint, result, fetched_at,
ttl}` (§3); the fingerprint is the association key, times are in seconds. -/
structure CacheEntry where
  result : List ListingRecord
  fetched_at : ℤ
  ttl : ℤ
deriving DecidableEq, Repr

/-- Modelled from the spec: the cache time-to-live, 15 minutes (§4.2),
in seconds. -/
def CACHE_TTL : ℤ := 900

/-- Modelled from the spec: the deliberately short TTL stored for a
successful-but-empty search result (§4.2), in seconds. -/
def EMPTY_RESULT_TTL : ℤ := 60

/-- The cache's internal map, fingerprint → entry, as an association list
where the most recent entry for a fingerprint shadows older ones. -/
def CacheMap := List (String × CacheEntry)

/-- Look up the entry stored for a fingerprint. -/
def cacheLookup (c : CacheMap) (fp : String) : Option CacheEntry :=
  (List.find? (fun e => decide (e.1 = fp)) c).map (·.2)

/-- Outcome of one `getOrFetch` call: the served listings, the cache
afterwards, and whether the underlying `fetchFn` (the Market Query Adapter)
was invoked. -/
structure FetchOutcome where
  result : List ListingRecord
  cache : CacheMap
  invoked : Bool

/-- Modelled from the spec: `getOrFetch(fingerprint, fetchFn)` (§4.2).  On a
hit within TTL the cached result is returned without invoking `fetchFn`; an
entry is never served once `now > fetched_at + ttl`.  On a miss the fetched
result is stored (with a short TTL when empty) and returned.  `fetchFn` is
modelled as the listing set the adapter would return at this moment. -/
def getOrFetch (c : CacheMap) (fp : String) (now : ℤ)
    (fetchFn : List ListingRecord) : FetchOutcome :=
  let doFetch : FetchOutcome :=
    let ttl := if fetchFn = [] then EMPTY_RESULT_TTL else CACHE_TTL
    ⟨fetchFn, (fp, ⟨fetchFn, now, ttl⟩) :: c, true⟩
  match cacheLookup c fp with
  | some e => if now ≤ e.fetched_at + e.ttl then ⟨e.result, c, false⟩ else doFetch
  | none => doFetch

/- ### Refresh Orchestrator — modelled from the spec.
The backend orchestrator (README: background refresh endpoint in
backend/api/main.py) is part of the absent Python backend; reconstructed
from spec §4.4 and §5. -/

/-- Modelled from the spec: the refresh job states,
`{Idle, Running, Completed, Failed}` (§3). -/
inductive RJState where
  | idle
  | running
  | completed
  | failed
deriving DecidableEq, Repr

/-- Modelled from the spec: `RefreshJob = {state, progress, total,
current_item_label}` (§3). -/
structure RefreshJob where
  state : RJState
  progress : ℕ
  total : ℕ
  current_item_label : String
deriving DecidableEq, Repr

/-- Modelled from the spec: the result of `triggerRefresh()` — accepted, or
rejected with `OrchestratorError::AlreadyRunning` (§6, §7). -/
inductive TriggerResult where
  | accepted
  | alreadyRunning
deriving DecidableEq, Repr

/-- Modelled from the spec: terminal states immediately reset and re-arm for
the next invocation (§4.4), so for triggering purposes they behave as Idle. -/
def reArm : RJState → RJState
  | .completed => .idle
  | .failed => .idle
  | s => s

/-- Modelled from the spec: `triggerRefresh()` (§4.4, §6) — the Idle →
Running transition is the only entry point into a run, and a trigger while a
run is Running is rejected as a no-op with an AlreadyRunning signal.  On
acceptance the job enters Running with progress reset to 0. -/
def triggerRefresh (j : RefreshJob) : TriggerResult × RefreshJob :=
  if reArm j.state = .running then (.alreadyRunning, j)
  else (.accepted, ⟨.running, 0, j.total, ""⟩)

/-- Process `n` trigger calls one at a time against the shared job state —
the serialization of `n` concurrent `triggerRefresh()` calls through the
single job mutex (§5). -/
def processTriggers : RefreshJob → ℕ → List TriggerResult × RefreshJob
  | j, 0 => ([], j)
  | j, n + 1 =>
    let t := triggerRefresh j
    let rest := processTriggers t.2 n
    (t.1 :: rest.1, rest.2)

/-- Modelled from the spec: completing one item of the run advances
`progress` by one and updates the current item label (§4.4). -/
def stepItem (j : RefreshJob) (label : String) : RefreshJob :=
  { j with progress := j.progress + 1, current_item_label := label }

/-- The successive job states observable during a run: the starting state
followed by the state after each processed item. -/
def runTrace : RefreshJob → List String → List RefreshJob
  | j, [] => [j]
  | j, l :: ls => j :: runTrace (stepItem j l) ls

/-- Modelled from the spec: `getRefreshStatus()` (§6) serialized into the
frontend's `RefreshStatus` wire shape (src/frontend/src/types/index.ts,
consumed by `useRefreshStatus` in src/frontend/src/hooks/useApi.ts): a
boolean `running` flag plus progress, total and the current item label —
the only fields the status endpoint exposes. -/
def getRefreshStatus (j : RefreshJob) : RefreshStatus :=
  ⟨decide (j.state = .running), j.progress, j.total, j.current_item_label⟩

/-- A concrete card with every field populated neutrally, used to build
witness inputs. -/
def demoCard : Card where
  id := 1
  year := 2024
  set_name := "Donruss Optic"
  parallel_rarity := "Holo"
  serial_number := none
  population := none
  date_acquired := none
  is_graded := false
  grading_company := none
  grade := none
  cost_basis := none
  authenticity_guaranteed := false
  is_owned := true
  last_sale_price := none
  last_sale_date := none
  avg_30_day_price := none
  num_sales_30_day := none
  price_trend := none
  lowest_active_price := none
  lowest_active_url := none
  estimated_value := none
  last_price_update := none
  ebay_sold_url := none
  ebay_active_url := none

/-- Characterization of `calculateDiscount`: null exactly when either price
is absent or zero, otherwise the percentage discount of the lowest active
price against the 30-day average. -/
lemma calculateDiscount_eq (c : Card) :
    calculateDiscount c =
      match c.lowest_active_price, c.avg_30_day_price with
      | some l, some a => if l = 0 ∨ a = 0 then none else some ((a - l) / a * 100)
      | _, _ => none := by
  unfold calculateDiscount jsFalsy
  cases hl : c.lowest_active_price with
  | none => simp
  | some l =>
    cases ha : c.avg_30_day_price with
    | none => simp
    | some a =>
      by_cases h0l : l = 0 <;> by_cases h0a : a = 0 <;>
        simp [h0l, h0a, Option.getD]

/-- Claim C10 (amended): `calculatePL` agrees everywhere with `plSpec`: it
is total, never divides by zero, returns nulls when `cost_basis` is null or
zero or when `estimated_value` is exactly zero, returns `{0, 0}` when
`estimated_value` is null with a nonzero `cost_basis`, and otherwise
computes the P/L formula. -/
theorem calculatePL_matches_plSpec (c : Card) : calculatePL c = plSpec c := by
  unfold calculatePL plSpec jsFalsy
  cases hcb : c.cost_basis with
  | none =>
    cases hev : c.estimated_value with
    | none => simp
    | some v => by_cases h0 : v = 0 <;> simp [h0]
  | some cb =>
    cases hev : c.estimated_value with
    | none => by_cases h0 : cb = 0 <;> simp [h0, Option.getD]
    | some v =>
      by_cases h0 : cb = 0 <;> by_cases hv : v = 0 <;>
        simp [h0, hv, Option.getD]

/-- Counterexample to claim C10 as stated: a card with nonzero `cost_basis`
and `estimated_value = 0` sits in the claim's "otherwise" case, whose
formula would give `{-50, -100}` — but `calculatePL` returns
`{null, null}`, because JavaScript `!value` also treats 0 as falsy. -/
theorem calculatePL_claim_counterexample :
    calculatePL { demoCard with cost_basis := some 50, estimated_value := some 0 } =
      ⟨none, none⟩ ∧
    ({ demoCard with cost_basis := some 50, estimated_value := some 0 } : Card).cost_basis
      = some 50 ∧
    ({ demoCard with cost_basis := some 50, estimated_value := some 0 } : Card).estimated_value
      = some 0 ∧
    ((0 : ℚ) - 50) / 50 * 100 = -100 ∧
    (⟨none, none⟩ : PLResult) ≠ ⟨some ((0 : ℚ) - 50), some (((0 : ℚ) - 50) / 50 * 100)⟩ := by
  refine ⟨rfl, rfl, rfl, by norm_num, by decide⟩

/-- Claim C9: a want-list card is flagged as a buying opportunity exactly
when both prices are present and nonzero and the discount
`((avg − lowest) / avg) · 100` is at least 10; when either price is absent
or zero the discount is null and the card is never flagged; and for a
positive 30-day average this is exactly "lowest active price at most 90% of
the average". -/
theorem wantlist_buying_opportunity (c : Card) :
    (isBuyingOpportunity c = true ↔
      ∃ a l, c.avg_30_day_price = some a ∧ a ≠ 0 ∧
        c.lowest_active_price = some l ∧ l ≠ 0 ∧ 10 ≤ (a - l) / a * 100) ∧
    ((c.avg_30_day_price = none ∨ c.avg_30_day_price = some 0 ∨
      c.lowest_active_price = none ∨ c.lowest_active_price = some 0) →
      calculateDiscount c = none ∧ isBuyingOpportunity c = false) ∧
    (∀ a l, c.avg_30_day_price = some a → 0 < a → c.lowest_active_price = some l →
      (isBuyingOpportunity c = true ↔ (l ≠ 0 ∧ l ≤ 9 / 10 * a))) := by
  have hd := calculateDiscount_eq c
  refine ⟨?_, ?_, ?_⟩
  · unfold isBuyingOpportunity
    rw [hd]
    cases hl : c.lowest_active_price with
    | none => simp
    | some l =>
      cases ha : c.avg_30_day_price with
      | none => simp
      | some a =>
        by_cases h0l : l = 0 <;> by_cases h0a : a = 0 <;>
          simp [h0l, h0a]
  · intro h
    unfold isBuyingOpportunity
    rw [hd]
    rcases h with h | h | h | h <;>
      cases hl : c.lowest_active_price <;> cases ha : c.avg_30_day_price <;>
        simp_all
  · intro a l ha hpos hl
    have key : (10 ≤ (a - l) / a * 100) ↔ l ≤ 9 / 10 * a := by
      rw [div_mul_eq_mul_div, le_div_iff₀ hpos]
      constructor <;> intro h <;> nlinarith
    unfold isBuyingOpportunity
    rw [hd, hl, ha]
    by_cases h0l : l = 0
    · simp [h0l]
    · have h0a : ¬ a = 0 := ne_of_gt hpos
      simp [h0l, h0a, key]

/-- Witness for C9: a want-list card with a $100 30-day average and an $80
lowest active listing (a 20% discount) is flagged as a buying opportunity. -/
theorem wantlist_buying_opportunity_witness :
    isBuyingOpportunity
      { demoCard with avg_30_day_price := some 100, lowest_active_price := some 80 }
      = true := by
  have h := (wantlist_buying_opportunity
    { demoCard with avg_30_day_price := some 100, lowest_active_price := some 80 }).2.2
    100 80 rfl (by norm_num) rfl
  exact h.mpr ⟨by norm_num, by norm_num⟩

/-- Claim C1: whenever the item's own sold history has at least one sale in
the 30-day lookback window, the Comp Engine returns Tier 1 with
`estimated_value` the exact arithmetic mean of the within-window sale
prices, and `avg_30_day_price` / `num_sales_30_day` computed from that same
set. -/
theorem comp_tier1_exact_mean (item : Item) (sold : List ListingRecord)
    (siblings : List SiblingHistory) (active : List ListingRecord) (now : ℤ)
    (h : windowSales sold now ≠ []) :
    (value item sold siblings active now).tier_used = .tier1 ∧
    (value item sold siblings active now).estimated_value =
      some (((windowSales sold now).map (·.price)).sum /
        (((windowSales sold now).map (·.price)).length : ℚ)) ∧
    (value item sold siblings active now).avg_30_day_price =
      some (((windowSales sold now).map (·.price)).sum /
        (((windowSales sold now).map (·.price)).length : ℚ)) ∧
    (value item sold siblings active now).num_sales_30_day =
      (windowSales sold now).length := by
  have hwp : (windowSales sold now).map (·.price) ≠ [] := by
    simpa using h
  simp [value, hwp, meanQ]

/-- A concrete item for Comp Engine witnesses. -/
def demoItem : Item := ⟨1, "Caleb Williams", none, false⟩

/-- The spec's scenario sold history: sales of $100, $120 and $140 within
30 days. -/
def demoSold : List ListingRecord :=
  [⟨100, 5, "eBay", "u1", true⟩, ⟨120, 10, "eBay", "u2", true⟩,
   ⟨140, 20, "eBay", "u3", true⟩]

/-- Witness for C1: the spec scenario — sold history [$100, $120, $140]
within 30 days gives `avg_30_day_price = $120`, `num_sales_30_day = 3` and
Tier 1. -/
theorem comp_tier1_witness :
    windowSales demoSold 30 ≠ [] ∧
    (value demoItem demoSold [] [] 30).tier_used = .tier1 ∧
    (value demoItem demoSold [] [] 30).avg_30_day_price = some 120 ∧
    (value demoItem demoSold [] [] 30).estimated_value = some 120 ∧
    (value demoItem demoSold [] [] 30).num_sales_30_day = 3 := by
  have h := comp_tier1_exact_mean demoItem demoSold [] [] 30 (by decide)
  refine ⟨by decide, h.1, ?_, ?_, h.2.2.2⟩
  · rw [h.2.2.1]
    norm_num [windowSales, demoSold, LOOKBACK_DAYS, List.filter_cons, List.filter_nil]
  · rw [h.2.1]
    norm_num [windowSales, demoSold, LOOKBACK_DAYS, List.filter_cons, List.filter_nil]

/-- The market-context fields of a `ValuationResult` — price trend, lowest
active listing and 30-day aggregates — do not depend on which valuation
tier was selected. -/
lemma value_context_fields (item : Item) (sold : List ListingRecord)
    (siblings : List SiblingHistory) (active : List ListingRecord) (now : ℤ) :
    (value item sold siblings active now).price_trend = priceTrend sold now ∧
    (value item sold siblings active now).lowest_active_price =
      (lowestActive active).map (·.price) ∧
    (value item sold siblings active now).lowest_active_url =
      (lowestActive active).map (·.source_url) ∧
    (value item sold siblings active now).num_sales_30_day =
      (windowSales sold now).length := by
  unfold value
  by_cases hwp : (windowSales sold now).map (·.price) = [] <;> simp [hwp]
  by_cases ht2 : tier2Applies item siblings now <;> simp [ht2]
  cases hpop : item.population with
  | none => simp
  | some p => cases h3 : tier3Estimate p (tier3Candidates item siblings now) <;> simp [h3]

/-- Claim C5: when no tier yields data the Comp Engine returns Tier 4 with
a null `estimated_value`; Tier 4 never carries a numeric estimate; and the
tier used is always one of the four defined tiers. -/
theorem comp_tier4_no_data (item : Item) (sold : List ListingRecord)
    (siblings : List SiblingHistory) (active : List ListingRecord) (now : ℤ) :
    ((windowSales sold now = [] ∧ cohortSales siblings now = [] ∧
        tier3Candidates item siblings now = []) →
      (value item sold siblings active now).tier_used = .tier4 ∧
      (value item sold siblings active now).estimated_value = none) ∧
    ((value item sold siblings active now).tier_used = .tier4 →
      (value item sold siblings active now).estimated_value = none) ∧
    ((value item sold siblings active now).tier_used = .tier1 ∨
     (value item sold siblings active now).tier_used = .tier2 ∨
     (value item sold siblings active now).tier_used = .tier3 ∨
     (value item sold siblings active now).tier_used = .tier4) := by
  refine ⟨?_, ?_, ?_⟩
  · rintro ⟨h1, h2, h3⟩
    have hwp : (windowSales sold now).map (·.price) = [] := by simp [h1]
    have ht2 : tier2Applies item siblings now = false := by
      simp [tier2Applies, h2]
    cases hpop : item.population with
    | none => simp [value, hwp, ht2, hpop]
    | some p =>
      simp [value, hwp, ht2, hpop, h3, tier3Estimate, nearestBelow, nearestAbove]
  · unfold value
    by_cases hwp : (windowSales sold now).map (·.price) = [] <;> simp [hwp]
    by_cases ht2 : tier2Applies item siblings now <;> simp [ht2]
    cases hpop : item.population with
    | none => simp
    | some p =>
      cases h3 : tier3Estimate p (tier3Candidates item siblings now) <;> simp [h3]
  · generalize (value item sold siblings active now).tier_used = t
    cases t <;> simp

/-- Witness for C5: an item with no sold history, no siblings and no active
listings gets Tier 4 and a null estimate. -/
theorem comp_tier4_witness :
    (windowSales [] 0 = [] ∧ cohortSales [] 0 = [] ∧
      tier3Candidates demoItem [] 0 = []) ∧
    (value demoItem [] [] [] 0).tier_used = .tier4 ∧
    (value demoItem [] [] [] 0).estimated_value = none := by
  exact ⟨⟨rfl, rfl, rfl⟩, (comp_tier4_no_data demoItem [] [] [] 0).1 ⟨rfl, rfl, rfl⟩⟩

/-- `betterListing` returns one of its two arguments. -/
lemma betterListing_eq_or (a b : ListingRecord) :
    betterListing a b = a ∨ betterListing a b = b := by
  unfold betterListing
  split_ifs <;> simp

/-- `betterListing a b` is lexicographically (price, then date) no worse
than `a`. -/
lemma betterListing_le_left (a b : ListingRecord) :
    (betterListing a b).price ≤ a.price ∧
    ((betterListing a b).price = a.price → (betterListing a b).date ≤ a.date) := by
  unfold betterListing
  split_ifs with h
  · rcases h with h | ⟨h1, h2⟩
    · exact ⟨le_of_lt h, fun he => absurd he (ne_of_lt h)⟩
    · exact ⟨le_of_eq h1, fun _ => le_of_lt h2⟩
  · exact ⟨le_rfl, fun _ => le_rfl⟩

/-- `betterListing a b` is lexicographically (price, then date) no worse
than `b`. -/
lemma betterListing_le_right (a b : ListingRecord) :
    (betterListing a b).price ≤ b.price ∧
    ((betterListing a b).price = b.price → (betterListing a b).date ≤ b.date) := by
  unfold betterListing
  split_ifs with h
  · exact ⟨le_rfl, fun _ => le_rfl⟩
  · push_neg at h
    exact ⟨h.1, fun he => h.2 he.symm⟩

/-- Transitivity of the (price, then date) lexicographic comparison. -/
lemma lexLe_trans {a b c : ListingRecord}
    (h1 : a.price ≤ b.price ∧ (a.price = b.price → a.date ≤ b.date))
    (h2 : b.price ≤ c.price ∧ (b.price = c.price → b.date ≤ c.date)) :
    a.price ≤ c.price ∧ (a.price = c.price → a.date ≤ c.date) := by
  refine ⟨le_trans h1.1 h2.1, fun he => ?_⟩
  have hba : b.price ≤ a.price := by rw [he]; exact h2.1
  have hb : a.price = b.price := le_antisymm h1.1 hba
  have hbc : b.price = c.price := by rw [← hb, he]
  exact le_trans (h1.2 hb) (h2.2 hbc)

/-- The fold underlying `lowestActive` yields an element of the scanned
collection that is lexicographically minimal in (price, then date). -/
lemma foldl_betterListing_spec (xs : List ListingRecord) (x : ListingRecord) :
    (List.foldl betterListing x xs = x ∨ List.foldl betterListing x xs ∈ xs) ∧
    ((List.foldl betterListing x xs).price ≤ x.price ∧
      ((List.foldl betterListing x xs).price = x.price →
        (List.foldl betterListing x xs).date ≤ x.date)) ∧
    (∀ y ∈ xs, (List.foldl betterListing x xs).price ≤ y.price ∧
      ((List.foldl betterListing x xs).price = y.price →
        (List.foldl betterListing x xs).date ≤ y.date)) := by
  induction xs generalizing x with
  | nil => simp
  | cons y ys ih =>
    obtain ⟨hmem, hx, hall⟩ := ih (betterListing x y)
    simp only [List.foldl_cons]
    refine ⟨?_, ?_, ?_⟩
    · rcases hmem with hmem | hmem
      · rcases betterListing_eq_or x y with he | he
        · exact Or.inl (hmem.trans he)
        · exact Or.inr (by rw [hmem, he]; exact List.mem_cons_self y ys)
      · exact Or.inr (List.mem_cons_of_mem y hmem)
    · exact lexLe_trans hx (betterListing_le_left x y)
    · intro z hz
      rcases List.mem_cons.mp hz with rfl | hz
      · exact lexLe_trans hx (betterListing_le_right x z)
      · exact hall z hz

/-- Claim C7: for a non-empty `activeListings` list the valuation's
`lowest_active_price` and `lowest_active_url` come from the minimum-price
listing record, with price ties broken by the earliest listing date — and
this holds whatever tier was used, since the fields depend only on
`activeListings`. -/
theorem comp_lowest_active (item : Item) (sold : List ListingRecord)
    (siblings : List SiblingHistory) (active : List ListingRecord) (now : ℤ)
    (h : active ≠ []) :
    ∃ r, lowestActive active = some r ∧ r ∈ active ∧
      (∀ y ∈ active, r.price ≤ y.price) ∧
      (∀ y ∈ active, y.price = r.price → r.date ≤ y.date) ∧
      (value item sold siblings active now).lowest_active_price = some r.price ∧
      (value item sold siblings active now).lowest_active_url = some r.source_url := by
  obtain ⟨hpt, hlp, hlu, hn⟩ := value_context_fields item sold siblings active now
  cases active with
  | nil => exact absurd rfl h
  | cons x xs =>
    obtain ⟨hmem, hx, hall⟩ := foldl_betterListing_spec xs x
    refine ⟨List.foldl betterListing x xs, rfl, ?_, ?_, ?_, ?_, ?_⟩
    · rcases hmem with hmem | hmem
      · rw [hmem]; exact List.mem_cons_self x xs
      · exact List.mem_cons_of_mem x hmem
    · intro y hy
      rcases List.mem_cons.mp hy with rfl | hy
      · exact hx.1
      · exact (hall y hy).1
    · intro y hy he
      rcases List.mem_cons.mp hy with rfl | hy
      · exact hx.2 he.symm
      · exact (hall y hy).2 he.symm
    · rw [hlp]; rfl
    · rw [hlu]; rfl

/-- The spec's scenario active listings: two listings at $80 and $95. -/
def demoActive : List ListingRecord :=
  [⟨80, 1, "eBay", "u80", false⟩, ⟨95, 2, "eBay", "u95", false⟩]

/-- Witness for C7: the spec scenario — an item with no sold, cohort or
sibling data but two active listings at $80 and $95 gets
`lowest_active_price = $80` and a null `estimated_value`. -/
theorem comp_lowest_active_witness :
    demoActive ≠ [] ∧
    (∃ r, lowestActive demoActive = some r ∧ r ∈ demoActive ∧
      (∀ y ∈ demoActive, r.price ≤ y.price) ∧
      (∀ y ∈ demoActive, y.price = r.price → r.date ≤ y.date) ∧
      (value demoItem [] [] demoActive 0).lowest_active_price = some r.price ∧
      (value demoItem [] [] demoActive 0).lowest_active_url = some r.source_url) ∧
    (value demoItem [] [] demoActive 0).lowest_active_price = some 80 ∧
    (value demoItem [] [] demoActive 0).estimated_value = none := by
  refine ⟨by decide, comp_lowest_active demoItem [] [] demoActive 0 (by decide), ?_, ?_⟩
  · rfl
  · rfl

/-- Claim C8: the price-trend classification compares the mean sale price
of the most recent 15-day half of the lookback window against the prior
15-day half, returning `up` exactly when the later mean exceeds the earlier
one by more than the fixed 10% relative threshold, `down` exactly when it
falls below by more than the threshold, and `stable` otherwise; the
valuation's `price_trend` field is exactly this classification. -/
theorem comp_price_trend (item : Item) (sold : List ListingRecord)
    (siblings : List SiblingHistory) (active : List ListingRecord) (now : ℤ)
    (hL : laterHalfSales sold now ≠ []) (hE : earlierHalfSales sold now ≠ [])
    (hE0 : 0 ≤ meanQ ((earlierHalfSales sold now).map (·.price))) :
    (value item sold siblings active now).price_trend = priceTrend sold now ∧
    (priceTrend sold now = some .up ↔
      meanQ ((earlierHalfSales sold now).map (·.price)) * (1 + TREND_THRESHOLD) <
        meanQ ((laterHalfSales sold now).map (·.price))) ∧
    (priceTrend sold now = some .down ↔
      meanQ ((laterHalfSales sold now).map (·.price)) <
        meanQ ((earlierHalfSales sold now).map (·.price)) * (1 - TREND_THRESHOLD)) ∧
    (priceTrend sold now = some .stable ↔
      (¬ meanQ ((earlierHalfSales sold now).map (·.price)) * (1 + TREND_THRESHOLD) <
          meanQ ((laterHalfSales sold now).map (·.price)) ∧
       ¬ meanQ ((laterHalfSales sold now).map (·.price)) <
          meanQ ((earlierHalfSales sold now).map (·.price)) * (1 - TREND_THRESHOLD))) := by
  have hchar : priceTrend sold now =
      (if meanQ ((earlierHalfSales sold now).map (·.price)) * (1 + TREND_THRESHOLD) <
          meanQ ((laterHalfSales sold now).map (·.price)) then some .up
        else if meanQ ((laterHalfSales sold now).map (·.price)) <
            meanQ ((earlierHalfSales sold now).map (·.price)) * (1 - TREND_THRESHOLD) then
          some .down
        else some .stable) := by
    unfold priceTrend
    rw [if_neg (by simp [hL, hE])]
  refine ⟨(value_context_fields item sold siblings active now).1, ?_, ?_, ?_⟩
  · rw [hchar]; split_ifs with hu hd <;> simp [hu]
  · rw [hchar]; split_ifs with hu hd
    · simp only [Option.some.injEq, reduceCtorEq, false_iff, not_lt]
      simp only [TREND_THRESHOLD] at hu hE0 ⊢
      linarith
    · simp [hd]
    · simp [hd]
  · rw [hchar]; split_ifs with hu hd
    · simp [hu]
    · simp [hd]
    · simp [hu, hd]

/-- The spec's price-trend scenario: the earlier 15-day half has mean $100,
the later half mean $130. -/
def demoTrendSold : List ListingRecord :=
  [⟨130, 25, "eBay", "t1", true⟩, ⟨100, 5, "eBay", "t2", true⟩]

/-- Witness for C8: with earlier-half mean $100, later-half mean $130 and a
10% threshold, the trend is `up`. -/
theorem comp_price_trend_witness :
    laterHalfSales demoTrendSold 30 ≠ [] ∧ earlierHalfSales demoTrendSold 30 ≠ [] ∧
    priceTrend demoTrendSold 30 = some .up := by
  have h := comp_price_trend demoItem demoTrendSold [] [] 30 (by decide) (by decide)
    (by norm_num [meanQ, earlierHalfSales, HALF_WINDOW_DAYS, LOOKBACK_DAYS, demoTrendSold,
      List.filter_cons, List.filter_nil])
  refine ⟨by decide, by decide, h.2.1.mpr ?_⟩
  norm_num [meanQ, laterHalfSales, earlierHalfSales, HALF_WINDOW_DAYS, LOOKBACK_DAYS,
    TREND_THRESHOLD, demoTrendSold, List.filter_cons, List.filter_nil]

/-- While a run is Running every trigger is rejected and the job is left
untouched. -/
lemma processTriggers_running (j : RefreshJob) (hj : j.state = .running) (n : ℕ) :
    processTriggers j n = (List.replicate n .alreadyRunning, j) := by
  induction n with
  | zero => simp [processTriggers]
  | succ n ih =>
    have ht : triggerRefresh j = (.alreadyRunning, j) := by
      simp [triggerRefresh, reArm, hj]
    simp [processTriggers, ht, ih, List.replicate_succ]

/-- Claim C2: serializing `n ≥ 1` concurrent `triggerRefresh()` calls
through the job lock, starting from Idle, accepts exactly one trigger and
rejects the other `n − 1` with AlreadyRunning; every trigger arriving while
the job is Running is rejected as a no-op, and a trigger is accepted
exactly when the (re-armed) state is Idle — the only entry point into a
run. -/
theorem refresh_single_flight (n : ℕ) (hn : 1 ≤ n) (j : RefreshJob)
    (hj : j.state = .idle) :
    (processTriggers j n).1 = .accepted :: List.replicate (n - 1) .alreadyRunning ∧
    (processTriggers j n).1.count .accepted = 1 ∧
    (processTriggers j n).1.count .alreadyRunning = n - 1 ∧
    (processTriggers j n).2.state = .running ∧
    (∀ k : RefreshJob, k.state = .running → triggerRefresh k = (.alreadyRunning, k)) ∧
    (∀ k : RefreshJob, (triggerRefresh k).1 = .accepted ↔ reArm k.state = .idle) ∧
    (∀ k : RefreshJob,
      (triggerRefresh k).1 = .accepted → (triggerRefresh k).2.state = .running) := by
  obtain ⟨m, rfl⟩ : ∃ m, n = m + 1 := ⟨n - 1, (Nat.succ_pred_eq_of_pos hn).symm⟩
  have ht : triggerRefresh j = (.accepted, ⟨.running, 0, j.total, ""⟩) := by
    simp [triggerRefresh, reArm, hj]
  have hrest := processTriggers_running ⟨.running, 0, j.total, ""⟩ rfl m
  have hproc : processTriggers j (m + 1) =
      (.accepted :: List.replicate m .alreadyRunning, ⟨.running, 0, j.total, ""⟩) := by
    simp [processTriggers, ht, hrest]
  refine ⟨by simp [hproc], ?_, ?_, by simp [hproc], ?_, ?_, ?_⟩
  · simp [hproc, List.count_cons, List.count_replicate]
  · simp [hproc, List.count_cons, List.count_replicate]
  · intro k hk
    simp [triggerRefresh, reArm, hk]
  · intro k
    cases hk : k.state <;> simp [triggerRefresh, reArm, hk]
  · intro k hk
    cases hks : k.state <;> simp [triggerRefresh, reArm, hks] at hk ⊢

/-- Witness for C2: three racing triggers against an idle job produce one
acceptance and two AlreadyRunning rejections, leaving the job Running. -/
theorem refresh_single_flight_witness :
    (1 ≤ 3) ∧
    (processTriggers ⟨.idle, 0, 0, ""⟩ 3).1.count .accepted = 1 ∧
    (processTriggers ⟨.idle, 0, 0, ""⟩ 3).1.count .alreadyRunning = 2 ∧
    (processTriggers ⟨.idle, 0, 0, ""⟩ 3).2.state = .running := by
  have h := refresh_single_flight 3 (by norm_num) ⟨.idle, 0, 0, ""⟩ rfl
  exact ⟨by norm_num, h.2.1, h.2.2.1, h.2.2.2.1⟩

/-- The progress values observed over a run form a contiguous integer
interval starting at the initial progress. -/
lemma runTrace_map_progress (ls : List String) (j : RefreshJob) :
    (runTrace j ls).map RefreshJob.progress = List.range' j.progress (ls.length + 1) := by
  induction ls generalizing j with
  | nil => simp [runTrace, List.range'_succ]
  | cons l ls ih =>
    rw [runTrace, List.map_cons, ih (stepItem j l), List.range'_succ]
    rfl

/-- Claim C6: during a run over `T` items started by an accepted trigger,
the observable progress counter takes every integer value `0..T` exactly
once, in non-decreasing order; each processed item advances progress by
exactly one, and progress is reset (to 0) precisely by the accepted
Idle → Running transition. -/
theorem refresh_progress_trace (T : ℕ) (labels : List String)
    (hlen : labels.length = T) (j : RefreshJob) (hj : j.state = .idle) :
    (runTrace (triggerRefresh j).2 labels).map RefreshJob.progress =
      List.range (T + 1) ∧
    List.Chain' (· ≤ ·)
      ((runTrace (triggerRefresh j).2 labels).map RefreshJob.progress) ∧
    (∀ v, v ≤ T →
      ((runTrace (triggerRefresh j).2 labels).map RefreshJob.progress).count v = 1) ∧
    (∀ (k : RefreshJob) (l : String), (stepItem k l).progress = k.progress + 1) ∧
    (triggerRefresh j).2.progress = 0 := by
  have hp0 : (triggerRefresh j).2.progress = 0 := by
    simp [triggerRefresh, reArm, hj]
  have hmap : (runTrace (triggerRefresh j).2 labels).map RefreshJob.progress =
      List.range (T + 1) := by
    rw [runTrace_map_progress, hp0, hlen, List.range_eq_range']
  refine ⟨hmap, ?_, ?_, fun k l => rfl, hp0⟩
  · rw [hmap]
    exact ((List.pairwise_lt_range (T + 1)).imp fun h => le_of_lt h).chain'
  · intro v hv
    rw [hmap]
    exact List.count_eq_one_of_mem (List.nodup_range (T + 1))
      (List.mem_range.mpr (Nat.lt_succ_of_le hv))

/-- Witness for C6: a two-item run started from an idle job yields the
progress trace `[0, 1, 2]`. -/
theorem refresh_progress_trace_witness :
    (runTrace (triggerRefresh ⟨.idle, 7, 2, "x"⟩).2 ["a", "b"]).map RefreshJob.progress =
      List.range 3 := by
  exact (refresh_progress_trace 2 ["a", "b"] rfl ⟨.idle, 7, 2, "x"⟩ rfl).1

/-- Claim C3: starting from an empty cache, a fetch at `t0` invokes the
Market Query Adapter; a second fetch for the identical fingerprint within
the 15-minute TTL is served from cache without invoking it (and returns the
same listings); a third fetch after the TTL has elapsed invokes it again;
and, in general, a cached entry is never served once
`now > fetched_at + ttl`. -/
theorem cache_ttl_single_fetch (fp : String) (t0 t1 t2 : ℤ)
    (r : List ListingRecord) (hr : r ≠ [])
    (h1 : t1 ≤ t0 + CACHE_TTL) (h2 : t0 + CACHE_TTL < t2) :
    (getOrFetch [] fp t0 r).invoked = true ∧
    (getOrFetch (getOrFetch [] fp t0 r).cache fp t1 r).invoked = false ∧
    (getOrFetch (getOrFetch [] fp t0 r).cache fp t1 r).result = r ∧
    (getOrFetch (getOrFetch (getOrFetch [] fp t0 r).cache fp t1 r).cache fp t2 r).invoked
      = true ∧
    (∀ (c : CacheMap) (g : String) (now : ℤ) (f : List ListingRecord),
      (getOrFetch c g now f).invoked = false →
      ∃ e, cacheLookup c g = some e ∧ now ≤ e.fetched_at + e.ttl) := by
  have hc0 : getOrFetch [] fp t0 r = ⟨r, [(fp, ⟨r, t0, CACHE_TTL⟩)], true⟩ := by
    simp [getOrFetch, cacheLookup, hr]
  have hlk : cacheLookup [(fp, (⟨r, t0, CACHE_TTL⟩ : CacheEntry))] fp =
      some ⟨r, t0, CACHE_TTL⟩ := by
    simp [cacheLookup, List.find?]
  have hc1 : getOrFetch [(fp, (⟨r, t0, CACHE_TTL⟩ : CacheEntry))] fp t1 r =
      ⟨r, [(fp, ⟨r, t0, CACHE_TTL⟩)], false⟩ := by
    unfold getOrFetch
    rw [hlk]
    simp [h1]
  have hc2 : (getOrFetch [(fp, (⟨r, t0, CACHE_TTL⟩ : CacheEntry))] fp t2 r).invoked
      = true := by
    unfold getOrFetch
    rw [hlk]
    simp [not_le.mpr h2]
  refine ⟨by rw [hc0], by rw [hc0, hc1], by rw [hc0, hc1], by rw [hc0, hc1]; exact hc2, ?_⟩
  intro c g now f hserved
  unfold getOrFetch at hserved
  cases hl : cacheLookup c g with
  | none => rw [hl] at hserved; simp at hserved
  | some e =>
    rw [hl] at hserved
    by_cases hok : now ≤ e.fetched_at + e.ttl
    · exact ⟨e, rfl, hok⟩
    · simp [hok] at hserved

/-- Witness for C3: a concrete run — fetch at time 0, hit at time 600,
refetch at time 1000 — invokes the adapter exactly on the first and third
calls. -/
theorem cache_ttl_single_fetch_witness :
    demoSold ≠ [] ∧ (600 : ℤ) ≤ 0 + CACHE_TTL ∧ (0 : ℤ) + CACHE_TTL < 1000 ∧
    (getOrFetch [] "fp" 0 demoSold).invoked = true ∧
    (getOrFetch (getOrFetch [] "fp" 0 demoSold).cache "fp" 600 demoSold).invoked = false ∧
    (getOrFetch (getOrFetch (getOrFetch [] "fp" 0 demoSold).cache "fp" 600 demoSold).cache
      "fp" 1000 demoSold).invoked = true := by
  have h := cache_ttl_single_fetch "fp" 0 600 1000 demoSold (by decide)
    (by norm_num [CACHE_TTL]) (by norm_num [CACHE_TTL])
  exact ⟨by decide, by norm_num [CACHE_TTL], by norm_num [CACHE_TTL],
    h.1, h.2.1, h.2.2.2.1⟩

/-- Counterexample to claim C4: the status exposed to callers
(`RefreshStatus`, src/frontend/src/types/index.ts) carries only a boolean
`running` flag, so a run that ended Failed is observationally identical to
one that ended Completed with the same progress — here two jobs differing
only in their terminal state map to equal statuses. -/
theorem refresh_status_counterexample :
    (⟨.completed, 5, 5, "done"⟩ : RefreshJob).state ≠
      (⟨.failed, 5, 5, "done"⟩ : RefreshJob).state ∧
    getRefreshStatus ⟨.completed, 5, 5, "done"⟩ =
      getRefreshStatus ⟨.failed, 5, 5, "done"⟩ := by
  exact ⟨by decide, rfl⟩

/-- Claim C4 (amended): the exposed refresh status reflects the job state
only through the boolean `running` flag (true exactly in state Running)
together with faithful progress, total and current-item fields; any
Completed-ended and Failed-ended runs with equal counters are
indistinguishable to a status observer. -/
theorem refresh_status_amended (j : RefreshJob) :
    ((getRefreshStatus j).running = true ↔ j.state = .running) ∧
    (getRefreshStatus j).progress = j.progress ∧
    (getRefreshStatus j).total = j.total ∧
    (getRefreshStatus j).current_card = j.current_item_label ∧
    (∀ (p t : ℕ) (l : String),
      getRefreshStatus ⟨.completed, p, t, l⟩ = getRefreshStatus ⟨.failed, p, t, l⟩) := by
  exact ⟨by simp [getRefreshStatus], rfl, rfl, rfl, fun p t l => rfl⟩

end CalebCards
